import Mathlib

/-!
A verification development for the lock-free two-level page table in
`src/pagetable.rs` (a radix tree mapping dense 36-bit page identifiers to
page pointers).

The embedding is sequential and state-passing: the mutable table (one
first-level node whose slots optionally hold second-level nodes, whose
slots optionally hold pages) becomes an explicit `PageTable` state record,
and each operation returns its post-state together with either its result
or the panic it raises.  Rust panics (`assert!` failures and array
index-out-of-bounds) are modelled as `Panic` values carried in an
`Except`/`Option` alongside the state at the moment the panic fires.

The read-copy-update protocol of `PageView::rcu` acts on a single slot and
needs pointer identity (compare-and-swap compares pointers, not values), so
it is embedded separately as a `SlotState` with an explicit heap from
pointer names to page values, an allocation counter, and the list of
pointers retired into the epoch guard.
-/

namespace Pagetable

/-- A page payload.  The table is agnostic to its contents beyond needing
value copies and a monotonically increasing version marker
(`Page::version` in the source). -/
structure Page where
  version : Nat
  data : Nat
deriving DecidableEq

/-- `const FAN_FACTOR: usize = 18` from the source. -/
def FAN_FACTOR : Nat := 18

/-- `const FAN_OUT: usize = 1 << FAN_FACTOR` from the source. -/
def FAN_OUT : Nat := 2 ^ FAN_FACTOR

/-- `const FAN_MASK: usize = FAN_OUT - 1` from the source. -/
def FAN_MASK : Nat := FAN_OUT - 1

/-- The distinct abort conditions the code can raise:
the range assertion in `split_fanout`, a slice index out of bounds in
`traverse`, and the `assert!(old.is_null())` in `insert`. -/
inductive Panic where
  | idOutOfRange
  | indexOutOfBounds
  | duplicateInsert
deriving DecidableEq

/-- `split_fanout` from the source: it asserts
`id <= 1 << (FAN_FACTOR * 2)` (panicking on larger identifiers) and then
returns `(id >> FAN_FACTOR, id & FAN_MASK)`.  `safe_usize` never fails on
a 64-bit host, so it is the identity here. -/
def split_fanout (id : Nat) : Except Panic (Nat × Nat) :=
  if id ≤ 2 ^ (FAN_FACTOR * 2) then
    Except.ok (id >>> FAN_FACTOR, id &&& FAN_MASK)
  else
    Except.error Panic.idOutOfRange

/-- The state of a `PageTable`.  `node2 i = true` records that the
first-level node's slot `i` holds an installed second-level node
(`Node2`); `slots i j` is the content of slot `j` of that second-level
node (pages of a branch whose `Node2` is absent are all `none`, since a
freshly installed node is allocated zeroed). -/
structure PageTable where
  node2 : Nat → Bool
  slots : Nat → Nat → Option Page

/-- `PageTable::default()`: a single first-level node allocated zeroed, so
every slot is empty. -/
def defaultTable : PageTable :=
  { node2 := fun _ => false, slots := fun _ _ => none }

/-- States that correspond to a reachable heap: a branch whose second-level
node has not been installed holds no pages. -/
def wellFormed (st : PageTable) : Prop :=
  ∀ i, st.node2 i = false → ∀ j, st.slots i j = none

/-- The second half of `traverse`: if the first-level slot `l1k` is null,
allocate a fresh zeroed `Node2` and compare-and-swap it in (sequentially
the compare-and-swap always succeeds).  A fresh node has every slot empty,
hence the reset of `slots l1k`. -/
def installNode (st : PageTable) (l1k : Nat) : PageTable :=
  if st.node2 l1k then st
  else
    { node2 := fun i => if i = l1k then true else st.node2 i,
      slots := fun i j => if i = l1k then none else st.slots i j }

/-- `PageTable::traverse` from the source: split the identifier, index the
first-level node (`l1[l1k]` panics when `l1k ≥ FAN_OUT`, before any
allocation), lazily install the second-level node, and index it.  Returns
the post-state and the coordinates of the addressed slot. -/
def traverse (st : PageTable) (k : Nat) :
    PageTable × Except Panic (Nat × Nat) :=
  match split_fanout k with
  | Except.error e => (st, Except.error e)
  | Except.ok (l1k, l2k) =>
    if l1k < FAN_OUT then
      let st' := installNode st l1k
      if l2k < FAN_OUT then (st', Except.ok (l1k, l2k))
      else (st', Except.error Panic.indexOutOfBounds)
    else (st, Except.error Panic.indexOutOfBounds)

/-- `PageTable::insert` from the source: traverse to the slot, swap the new
page in, and only afterwards `assert!(old.is_null())` — so on a duplicate
insert the new page is already in the slot when the panic fires.
The second component is `none` on success and `some p` when panic `p` is
raised; the first component is the state at that moment. -/
def insert (st : PageTable) (pid : Nat) (item : Page) :
    PageTable × Option Panic :=
  match traverse st pid with
  | (st', Except.error e) => (st', some e)
  | (st', Except.ok (l1k, l2k)) =>
    let old := st'.slots l1k l2k
    let st'' :=
      { st' with
        slots := fun i j =>
          if i = l1k ∧ j = l2k then some item else st'.slots i j }
    match old with
    | none => (st'', none)
    | some _ => (st'', some Panic.duplicateInsert)

/-- `PageTable::get` from the source: traverse to the slot and load it;
a null slot yields no view (`none`), a non-null slot yields the view's
observed page.  Note `get` shares `traverse` with `insert`, including its
lazy second-level-node installation. -/
def get (st : PageTable) (pid : Nat) :
    PageTable × Except Panic (Option Page) :=
  match traverse st pid with
  | (st', Except.error e) => (st', Except.error e)
  | (st', Except.ok (l1k, l2k)) => (st', Except.ok (st'.slots l1k l2k))

/-- Run a sequence of inserts left to right, stopping at the first panic
(a Rust panic aborts the process). -/
def runInserts (st : PageTable) : List (Nat × Page) → PageTable × Option Panic
  | [] => (st, none)
  | (pid, p) :: rest =>
    match insert st pid p with
    | (st', none) => runInserts st' rest
    | (st', some e) => (st', some e)

end Pagetable

namespace Pagetable

/- Arithmetic facts about the splitting, shared by several claims. -/

theorem fan_out_pos : 0 < FAN_OUT := by
  norm_num [FAN_OUT, FAN_FACTOR]

theorem shiftRight_eq_div (id : Nat) : id >>> FAN_FACTOR = id / FAN_OUT := by
  rw [Nat.shiftRight_eq_div_pow]
  rfl

theorem land_eq_mod (id : Nat) : id &&& FAN_MASK = id % FAN_OUT := by
  have h : FAN_MASK = 2 ^ FAN_FACTOR - 1 := rfl
  rw [h, Nat.and_pow_two_sub_one_eq_mod]
  rfl

theorem split_fanout_valid (id : Nat) (h : id ≤ 2 ^ (FAN_FACTOR * 2)) :
    split_fanout id = Except.ok (id / FAN_OUT, id % FAN_OUT) := by
  unfold split_fanout
  rw [if_pos h, shiftRight_eq_div, land_eq_mod]

theorem div_lt_fan_out {id : Nat} (h : id < 2 ^ 36) : id / FAN_OUT < FAN_OUT := by
  have hf : FAN_OUT = 262144 := by norm_num [FAN_OUT, FAN_FACTOR]
  have h36 : (2 : Nat) ^ 36 = 262144 * 262144 := by norm_num
  rw [hf]
  omega

theorem mod_lt_fan_out (id : Nat) : id % FAN_OUT < FAN_OUT :=
  Nat.mod_lt _ fan_out_pos

/-- Claim C10: for every identifier strictly below `2 ^ 36`,
`split_fanout id` returns `(id >> 18, id & (2 ^ 18 - 1))`, the two halves
reconstruct `id` as `first * 2 ^ 18 + second`, and the splitting is
injective on valid identifiers, so distinct valid identifiers never
address the same slot pair. -/
theorem C10_split_fanout_bijective (id idB : Nat)
    (h : id < 2 ^ 36) (hB : idB < 2 ^ 36) :
    split_fanout id = Except.ok (id >>> 18, id &&& (2 ^ 18 - 1)) ∧
    (id >>> 18) * 2 ^ 18 + (id &&& (2 ^ 18 - 1)) = id ∧
    (split_fanout id = split_fanout idB → id = idB) := by
  have hf : FAN_OUT = 262144 := by norm_num [FAN_OUT, FAN_FACTOR]
  have h36 : (2 : Nat) ^ 36 = 68719476736 := by norm_num
  have hle2 : (2 : Nat) ^ (FAN_FACTOR * 2) = 68719476736 := by
    norm_num [FAN_FACTOR]
  have hle : id ≤ 2 ^ (FAN_FACTOR * 2) := by omega
  have hleB : idB ≤ 2 ^ (FAN_FACTOR * 2) := by omega
  refine ⟨?_, ?_, ?_⟩
  · unfold split_fanout
    rw [if_pos hle]
    rfl
  · show (id >>> FAN_FACTOR) * FAN_OUT + (id &&& FAN_MASK) = id
    rw [shiftRight_eq_div, land_eq_mod, hf]
    omega
  · intro heq
    rw [split_fanout_valid id hle, split_fanout_valid idB hleB] at heq
    simp only [Except.ok.injEq, Prod.mk.injEq] at heq
    obtain ⟨h1, h2⟩ := heq
    rw [hf] at h1 h2
    omega

/-- Claim C10, witness at a concrete input. -/
theorem C10_split_fanout_bijective_witness :
    split_fanout 262147 = Except.ok (262147 >>> 18, 262147 &&& (2 ^ 18 - 1)) ∧
    (262147 >>> 18) * 2 ^ 18 + (262147 &&& (2 ^ 18 - 1)) = 262147 ∧
    (split_fanout 262147 = split_fanout 262147 → 262147 = 262147) :=
  C10_split_fanout_bijective 262147 262147 (by norm_num) (by norm_num)

/- Concrete pages used in concrete scenarios. -/

def pA : Page := { version := 0, data := 1 }

def pB : Page := { version := 0, data := 2 }

/-- Claim C3: the range assertion in `split_fanout` is
`id <= 1 << (FAN_FACTOR * 2)`, an inclusive bound, so the identifier
`2 ^ 36` — which is NOT representable in 36 bits — passes validation
(`split_fanout` returns `(2 ^ 18, 0)`), and the operation then dies with a
first-level array index out of bounds inside the traversal rather than
with the range violation; only identifiers strictly greater than `2 ^ 36`
fail the range check.  `2 ^ 36 - 1` succeeds as the claim states, and the
out-of-bounds panic still happens before any node is installed. -/
theorem C3_range_boundary :
    (insert defaultTable (2 ^ 36 - 1) pA).2 = none ∧
    (get defaultTable (2 ^ 36 - 1)).2 = Except.ok none ∧
    split_fanout (2 ^ 36) = Except.ok (262144, 0) ∧
    (insert defaultTable (2 ^ 36) pA).2 = some Panic.indexOutOfBounds ∧
    (get defaultTable (2 ^ 36)).2 = Except.error Panic.indexOutOfBounds ∧
    (insert defaultTable (2 ^ 36) pA).1.node2 262144 = false ∧
    (insert defaultTable (2 ^ 36 + 1) pA).2 = some Panic.idOutOfRange :=
  ⟨rfl, rfl, rfl, rfl, rfl, rfl, rfl⟩

/- Characterizations of `traverse`, `get` and `insert` on valid
identifiers, shared by several claims. -/

theorem pow_36_le (pid : Nat) (h : pid < 2 ^ 36) :
    pid ≤ 2 ^ (FAN_FACTOR * 2) := by
  have hle2 : (2 : Nat) ^ (FAN_FACTOR * 2) = 68719476736 := by
    norm_num [FAN_FACTOR]
  have h36 : (2 : Nat) ^ 36 = 68719476736 := by norm_num
  omega

theorem traverse_valid (st : PageTable) (pid : Nat) (h : pid < 2 ^ 36) :
    traverse st pid =
      (installNode st (pid / FAN_OUT),
       Except.ok (pid / FAN_OUT, pid % FAN_OUT)) := by
  unfold traverse
  rw [split_fanout_valid pid (pow_36_le pid h)]
  simp only [if_pos (div_lt_fan_out h), if_pos (mod_lt_fan_out pid)]

theorem bool_not_true {b : Bool} (h : ¬b = true) : b = false := by
  simpa using h

theorem installNode_node2_self (st : PageTable) (l1k : Nat) :
    (installNode st l1k).node2 l1k = true := by
  unfold installNode
  by_cases h : st.node2 l1k
  · rw [if_pos h]
    exact h
  · rw [if_neg h]
    simp

theorem installNode_node2_other (st : PageTable) (l1k i : Nat)
    (hi : i ≠ l1k) : (installNode st l1k).node2 i = st.node2 i := by
  unfold installNode
  by_cases h : st.node2 l1k
  · rw [if_pos h]
  · rw [if_neg h]
    simp only
    rw [if_neg hi]

theorem installNode_slots_of_wf (st : PageTable) (l1k : Nat)
    (hwf : wellFormed st) :
    ∀ i j, (installNode st l1k).slots i j = st.slots i j := by
  intro i j
  unfold installNode
  by_cases h : st.node2 l1k
  · rw [if_pos h]
  · rw [if_neg h]
    simp only
    by_cases hi : i = l1k
    · rw [if_pos hi, hi, hwf l1k (bool_not_true h) j]
    · rw [if_neg hi]

theorem installNode_wf (st : PageTable) (l1k : Nat)
    (hwf : wellFormed st) : wellFormed (installNode st l1k) := by
  intro i hi j
  rw [installNode_slots_of_wf st l1k hwf i j]
  by_cases h : i = l1k
  · rw [h] at hi
    rw [installNode_node2_self st l1k] at hi
    cases hi
  · rw [installNode_node2_other st l1k i h] at hi
    exact hwf i hi j

theorem get_valid (st : PageTable) (pid : Nat) (h : pid < 2 ^ 36)
    (hwf : wellFormed st) :
    get st pid =
      (installNode st (pid / FAN_OUT),
       Except.ok (st.slots (pid / FAN_OUT) (pid % FAN_OUT))) := by
  unfold get
  rw [traverse_valid st pid h]
  simp only
  rw [installNode_slots_of_wf st (pid / FAN_OUT) hwf]

theorem insert_result (st : PageTable) (pid : Nat) (p : Page)
    (h : pid < 2 ^ 36) (hwf : wellFormed st)
    (hempty : st.slots (pid / FAN_OUT) (pid % FAN_OUT) = none) :
    (insert st pid p).2 = none := by
  unfold insert
  rw [traverse_valid st pid h]
  simp only
  rw [installNode_slots_of_wf st (pid / FAN_OUT) hwf, hempty]

theorem insert_slots (st : PageTable) (pid : Nat) (p : Page)
    (h : pid < 2 ^ 36) (hwf : wellFormed st) :
    ∀ i j, (insert st pid p).1.slots i j =
      if i = pid / FAN_OUT ∧ j = pid % FAN_OUT then some p
      else st.slots i j := by
  intro i j
  unfold insert
  rw [traverse_valid st pid h]
  dsimp only
  rw [installNode_slots_of_wf st (pid / FAN_OUT) hwf
    (pid / FAN_OUT) (pid % FAN_OUT)]
  rcases ho : st.slots (pid / FAN_OUT) (pid % FAN_OUT) with _ | q
  · dsimp only
    rw [installNode_slots_of_wf st (pid / FAN_OUT) hwf i j]
  · dsimp only
    rw [installNode_slots_of_wf st (pid / FAN_OUT) hwf i j]

theorem insert_node2 (st : PageTable) (pid : Nat) (p : Page)
    (h : pid < 2 ^ 36) :
    ∀ i, (insert st pid p).1.node2 i =
      (installNode st (pid / FAN_OUT)).node2 i := by
  intro i
  unfold insert
  rw [traverse_valid st pid h]
  simp only
  rcases ho : (installNode st (pid / FAN_OUT)).slots (pid / FAN_OUT)
      (pid % FAN_OUT) with _ | q <;> simp only

theorem insert_wf (st : PageTable) (pid : Nat) (p : Page)
    (h : pid < 2 ^ 36) (hwf : wellFormed st) :
    wellFormed (insert st pid p).1 := by
  intro i hi j
  rw [insert_node2 st pid p h] at hi
  rw [insert_slots st pid p h hwf]
  by_cases hij : i = pid / FAN_OUT ∧ j = pid % FAN_OUT
  · exfalso
    rw [hij.1, installNode_node2_self] at hi
    cases hi
  · rw [if_neg hij]
    by_cases hii : i = pid / FAN_OUT
    · rw [hii, installNode_node2_self] at hi
      cases hi
    · rw [installNode_node2_other st _ i hii] at hi
      exact hwf i hi j

theorem defaultTable_wf : wellFormed defaultTable :=
  fun _ _ _ => rfl

/-- Claim C2, counterexample: on the empty table, `get 0` — a read of an
identifier whose Second-Level Node is absent — returns no view but leaves
the table changed: traversal has installed a Second-Level Node for
first-level index 0 (allocating it), because `get` shares the lazily
allocating `traverse` with `insert`. -/
theorem C2_get_installs_node_cex :
    defaultTable.node2 0 = false ∧
    (get defaultTable 0).2 = Except.ok none ∧
    (get defaultTable 0).1.node2 0 = true :=
  ⟨rfl, rfl, rfl⟩

/-- Claim C2 (amended): on a valid identifier, `get` never fails and never
changes any page slot, but it does not leave the node structure unchanged:
it installs the Second-Level Node for the identifier's first-level index
if absent, and that installation is the only state change `get` causes. -/
theorem C2_get_frame (st : PageTable) (pid : Nat) (h : pid < 2 ^ 36)
    (hwf : wellFormed st) :
    (get st pid).2 = Except.ok (st.slots (pid / FAN_OUT) (pid % FAN_OUT)) ∧
    (∀ i j, (get st pid).1.slots i j = st.slots i j) ∧
    (∀ i, i ≠ pid / FAN_OUT → (get st pid).1.node2 i = st.node2 i) ∧
    (get st pid).1.node2 (pid / FAN_OUT) = true := by
  rw [get_valid st pid h hwf]
  exact ⟨rfl, installNode_slots_of_wf st _ hwf,
    fun i hi => installNode_node2_other st _ i hi,
    installNode_node2_self st _⟩

/-- Claim C2 (amended), witness at a concrete input. -/
theorem C2_get_frame_witness :
    (get defaultTable 5).2 =
      Except.ok (defaultTable.slots (5 / FAN_OUT) (5 % FAN_OUT)) ∧
    (∀ i j, (get defaultTable 5).1.slots i j = defaultTable.slots i j) ∧
    (∀ i, i ≠ 5 / FAN_OUT →
      (get defaultTable 5).1.node2 i = defaultTable.node2 i) ∧
    (get defaultTable 5).1.node2 (5 / FAN_OUT) = true :=
  C2_get_frame defaultTable 5 (by norm_num) defaultTable_wf

theorem insert_result_dup (st : PageTable) (pid : Nat) (p : Page)
    (h : pid < 2 ^ 36) (hwf : wellFormed st) (q : Page)
    (hocc : st.slots (pid / FAN_OUT) (pid % FAN_OUT) = some q) :
    (insert st pid p).2 = some Panic.duplicateInsert := by
  unfold insert
  rw [traverse_valid st pid h]
  dsimp only
  rw [installNode_slots_of_wf st (pid / FAN_OUT) hwf
    (pid / FAN_OUT) (pid % FAN_OUT), hocc]

/-- Claim C4, counterexample: `insert(0, pA)` then `insert(0, pB)` is
fatal as claimed, but at the moment the duplicate-insert panic is raised
the slot for identifier 0 holds `pB`, not `pA`: `insert` swaps the new
page in first and only then asserts that the displaced value was null. -/
theorem C4_second_insert_overwrites_cex :
    (insert defaultTable 0 pA).2 = none ∧
    (get (insert defaultTable 0 pA).1 0).2 = Except.ok (some pA) ∧
    (insert (insert defaultTable 0 pA).1 0 pB).2 =
      some Panic.duplicateInsert ∧
    (insert (insert defaultTable 0 pA).1 0 pB).1.slots 0 0 = some pB :=
  ⟨rfl, rfl, rfl, rfl⟩

/-- Claim C4 (amended): `insert(id,p); insert(id,p2)` is fatal — the
second insert panics with the duplicate-insert assertion — but the swap
precedes the check, so at the moment the fatal condition is raised the
slot for `id` holds `p2` (the displaced `p` is the swap's return value,
observed by the assertion). -/
theorem C4_duplicate_insert_fatal (st : PageTable) (pid : Nat)
    (p p2 : Page) (h : pid < 2 ^ 36) (hwf : wellFormed st)
    (hempty : st.slots (pid / FAN_OUT) (pid % FAN_OUT) = none) :
    (insert st pid p).2 = none ∧
    (insert (insert st pid p).1 pid p2).2 = some Panic.duplicateInsert ∧
    (insert (insert st pid p).1 pid p2).1.slots
      (pid / FAN_OUT) (pid % FAN_OUT) = some p2 := by
  have hwf1 := insert_wf st pid p h hwf
  have hocc : (insert st pid p).1.slots (pid / FAN_OUT) (pid % FAN_OUT)
      = some p := by
    rw [insert_slots st pid p h hwf, if_pos ⟨rfl, rfl⟩]
  refine ⟨insert_result st pid p h hwf hempty, ?_, ?_⟩
  · exact insert_result_dup _ pid p2 h hwf1 p hocc
  · rw [insert_slots _ pid p2 h hwf1, if_pos ⟨rfl, rfl⟩]

/-- Claim C4 (amended), witness at a concrete input. -/
theorem C4_duplicate_insert_fatal_witness :
    (insert defaultTable 0 pA).2 = none ∧
    (insert (insert defaultTable 0 pA).1 0 pB).2 =
      some Panic.duplicateInsert ∧
    (insert (insert defaultTable 0 pA).1 0 pB).1.slots
      (0 / FAN_OUT) (0 % FAN_OUT) = some pB :=
  C4_duplicate_insert_fatal defaultTable 0 pA pB (by norm_num)
    defaultTable_wf rfl

/-- Claim C6: for a valid identifier whose slot is empty,
`insert(id, p)` succeeds (no panic) and a subsequent `get(id)` yields a
view (`some`) whose observed page equals `p`. -/
theorem C6_insert_then_get (st : PageTable) (pid : Nat) (p : Page)
    (h : pid < 2 ^ 36) (hwf : wellFormed st)
    (hempty : st.slots (pid / FAN_OUT) (pid % FAN_OUT) = none) :
    (insert st pid p).2 = none ∧
    (get (insert st pid p).1 pid).2 = Except.ok (some p) := by
  have hwf1 := insert_wf st pid p h hwf
  refine ⟨insert_result st pid p h hwf hempty, ?_⟩
  rw [get_valid _ pid h hwf1]
  dsimp only
  rw [insert_slots st pid p h hwf, if_pos ⟨rfl, rfl⟩]

/-- Claim C6, witness at a concrete input. -/
theorem C6_insert_then_get_witness :
    (insert defaultTable 3 pA).2 = none ∧
    (get (insert defaultTable 3 pA).1 3).2 = Except.ok (some pA) :=
  C6_insert_then_get defaultTable 3 pA (by norm_num) defaultTable_wf rfl

/- Frame lemmas for claim C7: an insert at a different identifier never
fills the slot addressed by `pid`. -/

theorem installNode_slots_none (st : PageTable) (l1k i j : Nat)
    (hn : st.slots i j = none) :
    (installNode st l1k).slots i j = none := by
  unfold installNode
  by_cases h : st.node2 l1k
  · rw [if_pos h]
    exact hn
  · rw [if_neg h]
    dsimp only
    by_cases hi : i = l1k
    · rw [if_pos hi]
    · rw [if_neg hi]
      exact hn

theorem insert_slots_no_wf (st : PageTable) (pidB : Nat) (q : Page)
    (hB : pidB < 2 ^ 36) : ∀ i j,
    (insert st pidB q).1.slots i j =
      if i = pidB / FAN_OUT ∧ j = pidB % FAN_OUT then some q
      else (installNode st (pidB / FAN_OUT)).slots i j := by
  intro i j
  unfold insert
  rw [traverse_valid st pidB hB]
  dsimp only
  rcases ho : (installNode st (pidB / FAN_OUT)).slots
      (pidB / FAN_OUT) (pidB % FAN_OUT) with _ | q2 <;> rfl

theorem insert_out_of_range (st : PageTable) (pidB : Nat) (q : Page)
    (h : 2 ^ (FAN_FACTOR * 2) < pidB) :
    insert st pidB q = (st, some Panic.idOutOfRange) := by
  unfold insert traverse split_fanout
  rw [if_neg (by omega : ¬ pidB ≤ 2 ^ (FAN_FACTOR * 2))]

theorem insert_index_oob (st : PageTable) (pidB : Nat) (q : Page)
    (hle : pidB ≤ 2 ^ (FAN_FACTOR * 2))
    (hge : ¬ pidB / FAN_OUT < FAN_OUT) :
    insert st pidB q = (st, some Panic.indexOutOfBounds) := by
  unfold insert traverse
  rw [split_fanout_valid pidB hle]
  dsimp only
  rw [if_neg hge]

theorem insert_preserves_none (st : PageTable) (pidB : Nat) (q : Page)
    (i j : Nat) (hn : st.slots i j = none)
    (hne : ¬(pidB < 2 ^ 36 ∧ i = pidB / FAN_OUT ∧ j = pidB % FAN_OUT)) :
    (insert st pidB q).1.slots i j = none := by
  by_cases hB : pidB < 2 ^ 36
  · rw [insert_slots_no_wf st pidB q hB i j,
      if_neg (fun hij => hne ⟨hB, hij⟩)]
    exact installNode_slots_none st _ i j hn
  · have hf : FAN_OUT = 262144 := by norm_num [FAN_OUT, FAN_FACTOR]
    have hle2 : (2 : Nat) ^ (FAN_FACTOR * 2) = 68719476736 := by
      norm_num [FAN_FACTOR]
    have h36 : (2 : Nat) ^ 36 = 68719476736 := by norm_num
    by_cases hle : pidB ≤ 2 ^ (FAN_FACTOR * 2)
    · have h2 : ¬ pidB / FAN_OUT < FAN_OUT := by
        rw [hf]
        omega
      rw [insert_index_oob st pidB q hle h2]
      exact hn
    · rw [insert_out_of_range st pidB q (by omega)]
      exact hn

theorem coords_inj {a b : Nat}
    (h1 : a / FAN_OUT = b / FAN_OUT) (h2 : a % FAN_OUT = b % FAN_OUT) :
    a = b := by
  have hf : FAN_OUT = 262144 := by norm_num [FAN_OUT, FAN_FACTOR]
  rw [hf] at h1 h2
  omega

theorem runInserts_preserves_none (pid : Nat)
    (ops : List (Nat × Page)) :
    ∀ st stq r, (∀ e ∈ ops, e.1 ≠ pid) →
      st.slots (pid / FAN_OUT) (pid % FAN_OUT) = none →
      runInserts st ops = (stq, r) →
      stq.slots (pid / FAN_OUT) (pid % FAN_OUT) = none := by
  induction ops with
  | nil =>
    intro st stq r hmem hn hrun
    unfold runInserts at hrun
    injection hrun with h1 h2
    rw [← h1]
    exact hn
  | cons e rest ih =>
    obtain ⟨pidB, q⟩ := e
    intro st stq r hmem hn hrun
    have hne : pidB ≠ pid := hmem (pidB, q) (List.mem_cons_self _ _)
    have hn1 : (insert st pidB q).1.slots (pid / FAN_OUT) (pid % FAN_OUT)
        = none := by
      refine insert_preserves_none st pidB q _ _ hn ?_
      rintro ⟨hB, h1, h2⟩
      exact hne (coords_inj h1.symm h2.symm)
    unfold runInserts at hrun
    rcases hres : insert st pidB q with ⟨st1, r1⟩
    rw [hres] at hrun
    rw [hres] at hn1
    rcases r1 with _ | e1
    · exact ih st1 stq r (fun x hx => hmem x (List.mem_cons_of_mem _ hx))
        hn1 hrun
    · injection hrun with h1 h2
      rw [← h1]
      exact hn1

theorem get_none (st : PageTable) (pid : Nat) (h : pid < 2 ^ 36)
    (hn : st.slots (pid / FAN_OUT) (pid % FAN_OUT) = none) :
    (get st pid).2 = Except.ok none := by
  unfold get
  rw [traverse_valid st pid h]
  dsimp only
  rw [installNode_slots_none st _ _ _ hn]

/-- Claim C7: a valid identifier that was never inserted is absent —
after any sequence of inserts avoiding it, `get` returns no view — and
inserts on a different branch do not make it visible: after
`insert(2 ^ 18 + 3, a)` on the empty table, `get 3` returns nothing while
`get (2 ^ 18 + 3)` returns `a`. -/
theorem C7_absence_before_insert :
    (∀ (ops : List (Nat × Page)) (stq : PageTable) (r : Option Panic)
      (pid : Nat), pid < 2 ^ 36 → (∀ e ∈ ops, e.1 ≠ pid) →
      runInserts defaultTable ops = (stq, r) →
      (get stq pid).2 = Except.ok none) ∧
    (∀ a : Page,
      (insert defaultTable (2 ^ 18 + 3) a).2 = none ∧
      (get (insert defaultTable (2 ^ 18 + 3) a).1 3).2 = Except.ok none ∧
      (get (insert defaultTable (2 ^ 18 + 3) a).1 (2 ^ 18 + 3)).2 =
        Except.ok (some a)) := by
  constructor
  · intro ops stq r pid hpid hmem hrun
    exact get_none stq pid hpid
      (runInserts_preserves_none pid ops defaultTable stq r hmem rfl hrun)
  · intro a
    have hv : (2 : Nat) ^ 18 + 3 < 2 ^ 36 := by norm_num
    have hwf1 := insert_wf defaultTable (2 ^ 18 + 3) a hv defaultTable_wf
    refine ⟨insert_result defaultTable _ a hv defaultTable_wf rfl, ?_, ?_⟩
    · refine get_none _ 3 (by norm_num) ?_
      refine insert_preserves_none defaultTable _ a _ _ rfl ?_
      rintro ⟨-, h1, -⟩
      rw [show (3 : Nat) / FAN_OUT = 0 by norm_num [FAN_OUT, FAN_FACTOR],
        show ((2 : Nat) ^ 18 + 3) / FAN_OUT = 1 by
          norm_num [FAN_OUT, FAN_FACTOR]] at h1
      cases h1
    · rw [get_valid _ _ hv hwf1]
      dsimp only
      rw [insert_slots defaultTable _ a hv defaultTable_wf, if_pos ⟨rfl, rfl⟩]

/-- Claim C7, witness at a concrete input. -/
theorem C7_absence_before_insert_witness :
    (get ((runInserts defaultTable [(2 ^ 18 + 3, pA)]).1) 3).2 =
      Except.ok none :=
  C7_absence_before_insert.1 [(2 ^ 18 + 3, pA)]
    ((runInserts defaultTable [(2 ^ 18 + 3, pA)]).1) none 3 (by norm_num)
    (by decide) rfl

end Pagetable

namespace Pagetable

/-!
The read-copy-update protocol of `PageView::rcu` acts on one slot and
compares POINTERS (crossbeam `Shared` values), not page values, so it is
embedded with explicit pointer names: `slot` is the pointer currently in
the originating `Atomic<Page>` entry (`none` would be a null slot),
`heap` maps pointer names to the page values they point at, `nextPtr` is
a bump allocator producing the fresh pointer of each `Owned::new` clone,
and `retired` lists the pointers handed to the epoch guard's
defer-destroy mechanism.
-/

structure SlotState where
  slot : Option Nat
  heap : Nat → Page
  nextPtr : Nat
  retired : List Nat

/-- Outcome of `rcu`: `Ok(b)` from the transformation, or
`Err(current_pointer)` surfacing a genuine version conflict. -/
inductive RcuResult (B : Type) where
  | ok : B → RcuResult B
  | conflict : Nat → RcuResult B

/-- `PageView::rcu` from the source, for a view whose originally observed
pointer is `read`.  Each loop iteration clones the page behind the
ORIGINAL pointer (`self.deref()` dereferences `self.read`), applies `f`
to the clone, and issues `compare_and_set(self.read, clone)` — again
expecting the original pointer: the freshly observed pointer assigned to
`old_pointer` on a same-version failure is never used.  On compare-and-
swap failure with a differing version marker the current pointer is
surfaced as a conflict.  A failed iteration's clone is dropped with the
error value.  `fuel` bounds the loop; `none` means no return within
`fuel` iterations (or a dereference of a null slot, which the source
cannot survive either).  No branch of the source calls the guard's
defer-destroy, so no branch touches `retired`. -/
def rcu {B : Type} (f : Page → Page × B) (read : Nat) :
    SlotState → Nat → Option (RcuResult B × SlotState)
  | _, 0 => none
  | st, fuel + 1 =>
    let c := st.nextPtr
    let pb := f (st.heap read)
    let st1 : SlotState :=
      { st with heap := fun x => if x = c then pb.1 else st.heap x,
                nextPtr := c + 1 }
    if st.slot = some read then
      some (RcuResult.ok pb.2, { st1 with slot := some c })
    else
      match st.slot with
      | some q =>
        if (st.heap q).version = (st.heap read).version then
          rcu f read st1 fuel
        else
          some (RcuResult.conflict q, st1)
      | none => none

/-- A transformation for the concrete scenarios: bump the page's data and
return the new value. -/
def fIncr : Page → Page × Nat :=
  fun p => ({ p with data := p.data + 1 }, p.data + 1)

/-- The same-version relocation scenario of claim C1: the view observed
pointer 0 (version 5), but the slot now holds pointer 1 — a different
physical location with the same version marker — and undergoes no further
replacement. -/
def relocState : SlotState :=
  { slot := some 1,
    heap := fun x =>
      if x = 0 then { version := 5, data := 10 }
      else if x = 1 then { version := 5, data := 20 }
      else { version := 0, data := 0 },
    nextPtr := 2,
    retired := [] }

theorem rcu_reloc_loops_aux : ∀ (fuel : Nat) (st : SlotState),
    st.slot = some 1 → (st.heap 0).version = 5 →
    (st.heap 1).version = 5 → 2 ≤ st.nextPtr →
    rcu fIncr 0 st fuel = none := by
  intro fuel
  induction fuel with
  | zero =>
    intro st _ _ _ _
    rfl
  | succ n ih =>
    intro st hslot h0 h1 hn
    have hc0 : ¬ (0 : Nat) = st.nextPtr := by omega
    have hc1 : ¬ (1 : Nat) = st.nextPtr := by omega
    unfold rcu
    dsimp only
    rw [hslot]
    rw [if_neg (by decide : ¬ (some 1 = some (0 : Nat)))]
    dsimp only
    rw [h0, h1, if_pos rfl]
    refine ih _ rfl ?_ ?_ ?_
    · dsimp only
      rw [if_neg hc0]
      exact h0
    · dsimp only
      rw [if_neg hc1]
      exact h1
    · dsimp only
      omega

/-- Claim C1: in the same-version relocation scenario the retry loop of
`rcu` NEVER terminates, for any number of iterations: the retried
compare-and-swap keeps expecting the originally observed pointer
`self.read` (and keeps cloning the original page) instead of the freshly
observed current pointer, so every retry fails identically even though
the slot undergoes no further replacement. -/
theorem C1_rcu_reloc_never_terminates :
    ∀ fuel, rcu fIncr 0 relocState fuel = none := by
  intro fuel
  exact rcu_reloc_loops_aux fuel relocState rfl rfl rfl (by decide)

/-- The uncontended scenario of claim C5: the view observed pointer 0 and
the slot still holds pointer 0, so the compare-and-swap succeeds on the
first attempt. -/
def cleanState : SlotState :=
  { slot := some 0,
    heap := fun x =>
      if x = 0 then { version := 5, data := 10 }
      else { version := 0, data := 0 },
    nextPtr := 1,
    retired := [] }

/-- Claim C5: on a successful compare-and-swap, `rcu` returns the
transformation's result and installs the clone (pointer 1), but the
displaced old pointer 0 is NOT retired into the guard's deferred-free
mechanism: the retired list stays empty, because no branch of the source
ever invokes defer-destroy on the superseded page. -/
theorem C5_rcu_success_no_retire :
    (rcu fIncr 0 cleanState 1).map (fun r => r.1) =
      some (RcuResult.ok 11) ∧
    (rcu fIncr 0 cleanState 1).map (fun r => r.2.slot) = some (some 1) ∧
    (rcu fIncr 0 cleanState 1).map (fun r => r.2.retired) = some [] :=
  ⟨rfl, rfl, rfl⟩

/-- Claim C9: once a slot holds a non-null pointer it never returns to
null.  (1) `insert` leaves every occupied page slot occupied (on any
identifier, valid or not); (2) `insert` preserves well-formedness, so
this is stable under arbitrary insert sequences; (3) every `rcu` call
that returns leaves the slot non-null if it started non-null — each
store writes another non-null pointer. -/
theorem C9_no_null_store :
    (∀ (st : PageTable) (pid : Nat) (p : Page) (i j : Nat),
      wellFormed st → (st.slots i j).isSome = true →
      ((insert st pid p).1.slots i j).isSome = true) ∧
    (∀ (st : PageTable) (pid : Nat) (p : Page),
      wellFormed st → wellFormed (insert st pid p).1) ∧
    (∀ (B : Type) (f : Page → Page × B) (read : Nat) (st : SlotState)
      (fuel : Nat) (res : RcuResult B) (st' : SlotState),
      rcu f read st fuel = some (res, st') →
      st.slot.isSome = true → st'.slot.isSome = true) := by
  have hf : FAN_OUT = 262144 := by norm_num [FAN_OUT, FAN_FACTOR]
  have hle2 : (2 : Nat) ^ (FAN_FACTOR * 2) = 68719476736 := by
    norm_num [FAN_FACTOR]
  have h36 : (2 : Nat) ^ 36 = 68719476736 := by norm_num
  refine ⟨?_, ?_, ?_⟩
  · intro st pid p i j hwf hs
    by_cases hB : pid < 2 ^ 36
    · rw [insert_slots st pid p hB hwf i j]
      by_cases hij : i = pid / FAN_OUT ∧ j = pid % FAN_OUT
      · rw [if_pos hij]
        rfl
      · rw [if_neg hij]
        exact hs
    · by_cases hle : pid ≤ 2 ^ (FAN_FACTOR * 2)
      · rw [insert_index_oob st pid p hle (by rw [hf]; omega)]
        exact hs
      · rw [insert_out_of_range st pid p (by omega)]
        exact hs
  · intro st pid p hwf
    by_cases hB : pid < 2 ^ 36
    · exact insert_wf st pid p hB hwf
    · by_cases hle : pid ≤ 2 ^ (FAN_FACTOR * 2)
      · rw [insert_index_oob st pid p hle (by rw [hf]; omega)]
        exact hwf
      · rw [insert_out_of_range st pid p (by omega)]
        exact hwf
  · intro B f read st fuel
    induction fuel generalizing st with
    | zero =>
      intro res st' hrcu hs
      cases hrcu
    | succ n ih =>
      intro res st' hrcu hs
      unfold rcu at hrcu
      dsimp only at hrcu
      by_cases hslot : st.slot = some read
      · rw [if_pos hslot] at hrcu
        injection hrcu with h1
        injection h1 with h2 h3
        rw [← h3]
        rfl
      · rw [if_neg hslot] at hrcu
        rcases hq : st.slot with _ | q
        · rw [hq] at hrcu
          cases hrcu
        · rw [hq] at hrcu
          dsimp only at hrcu
          by_cases hv : (st.heap q).version = (st.heap read).version
          · rw [if_pos hv] at hrcu
            exact ih _ res st' hrcu rfl
          · rw [if_neg hv] at hrcu
            injection hrcu with h1
            injection h1 with h2 h3
            rw [← h3]
            rw [hq] at hs
            exact hs

/-- The state `rcu` produces in the uncontended scenario: clone pointer 1
installed, nothing retired. -/
def cleanStateAfter : SlotState :=
  { slot := some 1,
    heap := fun x =>
      if x = 1 then { version := 5, data := 11 } else cleanState.heap x,
    nextPtr := 2,
    retired := [] }

/-- Claim C9, witness at concrete inputs. -/
theorem C9_no_null_store_witness :
    ((insert (insert defaultTable 0 pA).1 7 pB).1.slots 0 0).isSome =
      true ∧
    cleanStateAfter.slot.isSome = true :=
  ⟨C9_no_null_store.1 (insert defaultTable 0 pA).1 7 pB 0 0
      (insert_wf defaultTable 0 pA (by norm_num) defaultTable_wf) rfl,
    C9_no_null_store.2.2 Nat fIncr 0 cleanState 1 (RcuResult.ok 11)
      cleanStateAfter rfl rfl⟩

end Pagetable

namespace Pagetable

/-!
Teardown.  `impl Drop for PageTable` takes the head node as uniquely
owned and drops it; `Drop for Node1` runs `drop_iter` over its children —
visiting slots strictly in index order and stopping at the first null
slot — dropping each non-null `Node2`, whose own `Drop` runs `drop_iter`
over its page slots the same way.
-/

/-- `drop_iter` at the `Node2` level: scan slots upward from index `i`
(with `fuel` slots remaining of the `FAN_OUT` total), stop at the first
null slot, and collect the pages freed before it. -/
def drop_iter_pages (f : Nat → Option Page) : Nat → Nat → List Page
  | 0, _ => []
  | fuel + 1, i =>
    match f i with
    | none => []
    | some p => p :: drop_iter_pages f fuel (i + 1)

/-- `drop_iter` at the `Node1` level: each non-null child's `Node2` drop
glue runs first (freeing that branch's page prefix), then the scan moves
on; the scan stops at the first null child. -/
def drop_iter_nodes (st : PageTable) : Nat → Nat → List Page
  | 0, _ => []
  | fuel + 1, i =>
    if st.node2 i then
      drop_iter_pages (st.slots i) FAN_OUT 0 ++
        drop_iter_nodes st fuel (i + 1)
    else []

/-- All pages freed by dropping the table. -/
def tableDropPages (st : PageTable) : List Page :=
  drop_iter_nodes st FAN_OUT 0

/-- How many second-level nodes the `Node1` drop scan visits and frees. -/
def drop_iter_node_count (st : PageTable) : Nat → Nat → Nat
  | 0, _ => 0
  | fuel + 1, i =>
    if st.node2 i then 1 + drop_iter_node_count st fuel (i + 1) else 0

/-- Number of second-level nodes freed by dropping the table. -/
def tableDropNodeCount (st : PageTable) : Nat :=
  drop_iter_node_count st FAN_OUT 0

/-- The table state reached by inserting a page at every identifier
`0, 1, ..., n-1` in order. -/
def denseState (n : Nat) (pg : Nat → Page) : PageTable :=
  { node2 := fun i => decide (i * FAN_OUT < n),
    slots := fun i j =>
      if i * FAN_OUT + j < n ∧ j < FAN_OUT then some (pg (i * FAN_OUT + j))
      else none }

/-- The insert sequence populating identifiers `0, 1, ..., n-1`. -/
def denseOps (n : Nat) (pg : Nat → Page) : List (Nat × Page) :=
  (List.range n).map (fun i => (i, pg i))

theorem fan_out_eq : FAN_OUT = 262144 := by
  norm_num [FAN_OUT, FAN_FACTOR]

theorem pow36_eq : (2 : Nat) ^ 36 = 68719476736 := by norm_num

theorem tableExt {s t : PageTable}
    (h1 : ∀ i, s.node2 i = t.node2 i)
    (h2 : ∀ i j, s.slots i j = t.slots i j) : s = t := by
  obtain ⟨n1, s1⟩ := s
  obtain ⟨n2, s2⟩ := t
  congr 1
  · funext i
    exact h1 i
  · funext i j
    exact h2 i j

theorem denseState_wf (n : Nat) (pg : Nat → Page) :
    wellFormed (denseState n pg) := by
  intro i hi j
  unfold denseState at *
  dsimp only at *
  have hni : ¬ i * FAN_OUT < n := of_decide_eq_false hi
  rw [if_neg]
  rintro ⟨h1, h2⟩
  omega

theorem denseState_zero (pg : Nat → Page) :
    denseState 0 pg = defaultTable := by
  refine tableExt (fun i => ?_) (fun i j => ?_)
  · unfold denseState defaultTable
    dsimp only
    simp
  · unfold denseState defaultTable
    dsimp only
    rw [if_neg]
    rintro ⟨h1, h2⟩
    omega

theorem denseState_node2_iff (n : Nat) (pg : Nat → Page) (i : Nat) :
    (denseState n pg).node2 i = true ↔ i * FAN_OUT < n := by
  unfold denseState
  dsimp only
  exact decide_eq_true_iff

theorem insert_dense_node2 (n : Nat) (pg : Nat → Page) (hn : n < 2 ^ 36) :
    ∀ i, (insert (denseState n pg) n (pg n)).1.node2 i =
      (denseState (n + 1) pg).node2 i := by
  intro i
  rw [insert_node2 _ n (pg n) hn i]
  by_cases hi : i = n / FAN_OUT
  · rw [hi, installNode_node2_self]
    unfold denseState
    dsimp only
    symm
    refine decide_eq_true ?_
    rw [fan_out_eq]
    omega
  · rw [installNode_node2_other _ _ i hi]
    unfold denseState
    dsimp only
    rw [fan_out_eq] at hi ⊢
    rw [decide_eq_decide]
    omega

theorem insert_dense_slots (n : Nat) (pg : Nat → Page) (hn : n < 2 ^ 36) :
    ∀ i j, (insert (denseState n pg) n (pg n)).1.slots i j =
      (denseState (n + 1) pg).slots i j := by
  intro i j
  rw [insert_slots _ n (pg n) hn (denseState_wf n pg) i j]
  unfold denseState
  dsimp only
  rw [fan_out_eq]
  by_cases hij : i = n / 262144 ∧ j = n % 262144
  · obtain ⟨hi, hj⟩ := hij
    subst hi
    subst hj
    rw [if_pos ⟨rfl, rfl⟩, if_pos (by omega)]
    have he : n / 262144 * 262144 + n % 262144 = n := by omega
    rw [he]
  · rw [if_neg hij]
    by_cases hj : j < 262144
    · by_cases h1 : i * 262144 + j < n
      · rw [if_pos ⟨h1, hj⟩, if_pos ⟨by omega, hj⟩]
      · have hne : ¬ i * 262144 + j < n + 1 := by
          intro h2
          exact hij ⟨by omega, by omega⟩
        rw [if_neg (fun hc => h1 hc.1), if_neg (fun hc => hne hc.1)]
    · rw [if_neg (fun hc => hj hc.2), if_neg (fun hc => hj hc.2)]

theorem insert_dense (n : Nat) (pg : Nat → Page) (hn : n < 2 ^ 36) :
    insert (denseState n pg) n (pg n) = (denseState (n + 1) pg, none) := by
  have hempty : (denseState n pg).slots (n / FAN_OUT) (n % FAN_OUT)
      = none := by
    unfold denseState
    dsimp only
    rw [if_neg]
    rw [fan_out_eq]
    rintro ⟨h1, h2⟩
    omega
  have hsnd : (insert (denseState n pg) n (pg n)).2 = none :=
    insert_result _ n (pg n) hn (denseState_wf n pg) hempty
  have hfst : (insert (denseState n pg) n (pg n)).1 = denseState (n + 1) pg :=
    tableExt (insert_dense_node2 n pg hn) (insert_dense_slots n pg hn)
  rw [← hfst, ← hsnd]

theorem runInserts_nil (st : PageTable) : runInserts st [] = (st, none) :=
  rfl

theorem runInserts_cons (st : PageTable) (pid : Nat) (p : Page)
    (rest : List (Nat × Page)) :
    runInserts st ((pid, p) :: rest) =
      match insert st pid p with
      | (st', none) => runInserts st' rest
      | (st', some e) => (st', some e) := rfl

theorem runInserts_append_ok (b : List (Nat × Page))
    (a : List (Nat × Page)) : ∀ st st1,
    runInserts st a = (st1, none) →
    runInserts st (a ++ b) = runInserts st1 b := by
  induction a with
  | nil =>
    intro st st1 hrun
    injection hrun with h1 h2
    rw [List.nil_append, h1]
  | cons e rest ih =>
    obtain ⟨pid, p⟩ := e
    intro st st1 hrun
    rw [runInserts_cons] at hrun
    rw [List.cons_append, runInserts_cons]
    rcases hres : insert st pid p with ⟨st2, r1⟩
    rw [hres] at hrun
    rcases r1 with _ | e1
    · exact ih st2 st1 hrun
    · injection hrun with h1 h2
      cases h2

theorem runInserts_dense (pg : Nat → Page) : ∀ n, n ≤ 2 ^ 36 →
    runInserts defaultTable (denseOps n pg) = (denseState n pg, none) := by
  intro n
  induction n with
  | zero =>
    intro _
    rw [denseState_zero]
    rfl
  | succ m ih =>
    intro hle
    have hsplit : denseOps (m + 1) pg = denseOps m pg ++ [(m, pg m)] := by
      unfold denseOps
      rw [List.range_succ, List.map_append]
      rfl
    rw [hsplit,
      runInserts_append_ok [(m, pg m)] (denseOps m pg) defaultTable
        (denseState m pg) (ih (by omega)),
      runInserts_cons, insert_dense m pg (by omega)]
    rfl

theorem drop_iter_pages_eq (f : Nat → Option Page) (g : Nat → Page)
    (m : Nat) (hfm : ∀ j, f j = if j < m then some (g j) else none) :
    ∀ fuel j, drop_iter_pages f fuel j =
      (List.range' j (min (m - j) fuel)).map g := by
  intro fuel
  induction fuel with
  | zero =>
    intro j
    rw [Nat.min_zero]
    rfl
  | succ k ih =>
    intro j
    unfold drop_iter_pages
    rw [hfm j]
    by_cases hj : j < m
    · rw [if_pos hj]
      dsimp only
      rw [ih (j + 1),
        show min (m - j) (k + 1) = min (m - (j + 1)) k + 1 by omega,
        List.range'_succ]
      rfl
    · rw [if_neg hj, show min (m - j) (k + 1) = 0 by omega]
      rfl

theorem range'_shift_map (pg : Nat → Page) (s m : Nat) :
    (List.range' s m).map pg =
      (List.range' 0 m).map (fun j => pg (s + j)) := by
  rw [List.range'_eq_map_range, ← List.range_eq_range', List.map_map]
  rfl

theorem drop_iter_nodes_dense (n : Nat) (pg : Nat → Page) :
    ∀ fuel i, drop_iter_nodes (denseState n pg) fuel i =
      (List.range' (i * FAN_OUT)
        (min (n - i * FAN_OUT) (fuel * FAN_OUT))).map pg := by
  intro fuel
  induction fuel with
  | zero =>
    intro i
    rw [Nat.zero_mul, Nat.min_zero]
    rfl
  | succ k ih =>
    intro i
    unfold drop_iter_nodes
    by_cases hi : i * FAN_OUT < n
    · rw [if_pos ((denseState_node2_iff n pg i).mpr hi)]
      have hfm : ∀ j, (denseState n pg).slots i j =
          if j < min (n - i * FAN_OUT) FAN_OUT then
            some (pg (i * FAN_OUT + j))
          else none := by
        intro j
        unfold denseState
        dsimp only
        rw [fan_out_eq]
        by_cases hj1 : j < 262144
        · by_cases hj2 : i * 262144 + j < n
          · rw [if_pos ⟨hj2, hj1⟩, if_pos (by omega)]
          · rw [if_neg (fun hc => hj2 hc.1), if_neg (by omega)]
        · rw [if_neg (fun hc => hj1 hc.2), if_neg (by omega)]
      rw [drop_iter_pages_eq _ _ _ hfm FAN_OUT 0, ih (i + 1)]
      rw [fan_out_eq] at hi ⊢
      rw [Nat.sub_zero,
        show min (min (n - i * 262144) 262144) 262144 =
          min (n - i * 262144) 262144 by omega]
      by_cases hfull : (i + 1) * 262144 ≤ n
      · rw [show min (n - i * 262144) 262144 = 262144 by omega,
          show min (n - i * 262144) ((k + 1) * 262144) =
            min (n - (i + 1) * 262144) (k * 262144) + 262144 by omega,
          ← List.range'_append_1 (i * 262144) 262144
            (min (n - (i + 1) * 262144) (k * 262144)),
          List.map_append,
          range'_shift_map pg (i * 262144) 262144,
          show i * 262144 + 262144 = (i + 1) * 262144 by ring]
      · rw [show min (n - (i + 1) * 262144) (k * 262144) = 0 by omega,
          show min (n - i * 262144) 262144 = n - i * 262144 by omega,
          show min (n - i * 262144) ((k + 1) * 262144) = n - i * 262144 by
            omega,
          show (List.range' ((i + 1) * 262144) 0).map pg = [] from rfl,
          List.append_nil,
          range'_shift_map pg (i * 262144) (n - i * 262144)]
    · rw [if_neg (fun h => hi ((denseState_node2_iff n pg i).mp h))]
      rw [fan_out_eq] at hi ⊢
      rw [show min (n - i * 262144) ((k + 1) * 262144) = 0 by omega]
      rfl

theorem drop_iter_node_count_dense (n : Nat) (pg : Nat → Page) :
    ∀ fuel i, drop_iter_node_count (denseState n pg) fuel i =
      min ((n + FAN_OUT - 1) / FAN_OUT - i) fuel := by
  intro fuel
  induction fuel with
  | zero =>
    intro i
    rw [Nat.min_zero]
    rfl
  | succ k ih =>
    intro i
    unfold drop_iter_node_count
    by_cases hi : i * FAN_OUT < n
    · rw [if_pos ((denseState_node2_iff n pg i).mpr hi), ih (i + 1)]
      rw [fan_out_eq] at hi ⊢
      omega
    · rw [if_neg (fun h => hi ((denseState_node2_iff n pg i).mp h))]
      rw [fan_out_eq] at hi ⊢
      omega

/-- Claim C8: teardown scans each node's slots strictly in index order and
stops at the first empty slot, freeing the contiguous occupied prefix;
hence for a table populated by inserting a page at every identifier
`0, 1, ..., n-1`, dropping the table frees exactly those `n` pages (in
identifier order) and all installed second-level nodes (the nodes form a
contiguous prefix of the first-level slots, all of which the scan
visits). -/
theorem C8_teardown_dense (n : Nat) (pg : Nat → Page) (hn : n ≤ 2 ^ 36)
    (st : PageTable)
    (hrun : runInserts defaultTable (denseOps n pg) = (st, none)) :
    tableDropPages st = (List.range n).map pg ∧
    tableDropNodeCount st = (n + FAN_OUT - 1) / FAN_OUT ∧
    (∀ i, st.node2 i = true ↔ i < (n + FAN_OUT - 1) / FAN_OUT) := by
  have hst : st = denseState n pg := by
    have hd := runInserts_dense pg n hn
    rw [hrun] at hd
    exact congrArg Prod.fst hd
  subst hst
  refine ⟨?_, ?_, ?_⟩
  · unfold tableDropPages
    rw [drop_iter_nodes_dense n pg FAN_OUT 0, Nat.zero_mul, Nat.sub_zero]
    rw [fan_out_eq] at *
    rw [pow36_eq] at hn
    rw [show min n (262144 * 262144) = n by omega, ← List.range_eq_range']
  · unfold tableDropNodeCount
    rw [drop_iter_node_count_dense n pg FAN_OUT 0]
    rw [fan_out_eq] at *
    rw [pow36_eq] at hn
    omega
  · intro i
    rw [denseState_node2_iff n pg i]
    rw [fan_out_eq]
    omega

/-- Page sequence used in the concrete teardown scenario. -/
def pgW : Nat → Page := fun i => { version := 0, data := i }

/-- Claim C8, witness at a concrete input. -/
theorem C8_teardown_dense_witness :
    tableDropPages ((runInserts defaultTable (denseOps 3 pgW)).1) =
      (List.range 3).map pgW ∧
    tableDropNodeCount ((runInserts defaultTable (denseOps 3 pgW)).1) =
      (3 + FAN_OUT - 1) / FAN_OUT ∧
    (∀ i, ((runInserts defaultTable (denseOps 3 pgW)).1).node2 i = true ↔
      i < (3 + FAN_OUT - 1) / FAN_OUT) :=
  C8_teardown_dense 3 pgW (by norm_num)
    ((runInserts defaultTable (denseOps 3 pgW)).1) rfl

end Pagetable
